import Mathlib

/-!
# Verification of the nvwebtop sampling buffer (`app.py`)

Shallow embedding of the core of `app.py`: the rolling history buffer of
GPU samples written by the background sampler loop (`fetch_gpu_data`),
the on-demand stats endpoint (`api_stats`), and the process-list fetch
(`fetch_gpu_processes`).  External effects (the `nvidia-smi` subprocess,
wall-clock time) are modelled as explicit inputs: an invocation outcome is
`Option String` (`none` = the invocation raised, `some stdout` = captured
standard output), and the sample timestamp is passed in as a rational.
Python `float` arithmetic is modelled with `ℚ`; Python `int` with `ℤ`.
-/

namespace Nvwebtop

/-! ## Python string primitives used by `app.py` -/

/-- The characters Python's `str.strip()` removes (ASCII whitespace:
space, tab, newline, carriage return, vertical tab, form feed). -/
def pyWhitespace (c : Char) : Bool :=
  c = ' ' || c = '\t' || c = '\n' || c = '\r' || c = Char.ofNat 11 || c = Char.ofNat 12

/-- Python `s.strip()`: drop leading and trailing whitespace. -/
def pyStrip (s : String) : String :=
  String.mk (((s.toList.dropWhile pyWhitespace).reverse.dropWhile pyWhitespace).reverse)

/-- Python `s.split("\n")` over the character list: split at every newline,
keeping empty pieces (so the result is never the empty list). -/
def splitNL : List Char → List (List Char)
  | [] => [[]]
  | c :: cs =>
    if c = '\n' then [] :: splitNL cs
    else
      match splitNL cs with
      | [] => [[c]]
      | h :: t => (c :: h) :: t

/-- Python `s.split(", ")` over the character list: split at each
non-overlapping occurrence of the two-character separator `", "`,
scanning left to right. -/
def splitCS : List Char → List (List Char)
  | [] => [[]]
  | ',' :: ' ' :: cs => [] :: splitCS cs
  | c :: cs =>
    match splitCS cs with
    | [] => [[c]]
    | h :: t => (c :: h) :: t

/-- Python `s.split("\n")`. -/
def pySplitNewline (s : String) : List String :=
  (splitNL s.toList).map String.mk

/-- Python `s.split(", ")`. -/
def pySplitCommaSpace (s : String) : List String :=
  (splitCS s.toList).map String.mk

/-- Decimal digit run as Python `int()` accepts after the first digit:
further digits, with single underscores allowed between digits
(`1_000` is legal, `1__0`, `1_`, `_1` are not).  The `Bool` argument
records whether the previous character was an underscore. -/
def pyDigitsAux : Nat → Bool → List Char → Option Nat
  | acc, lastUnd, [] => if lastUnd then none else some acc
  | acc, lastUnd, c :: cs =>
    if c.isDigit then pyDigitsAux (acc * 10 + (c.toNat - 48)) false cs
    else if c = '_' then
      if lastUnd then none else pyDigitsAux acc true cs
    else none

/-- A nonempty decimal digit run (first character must be a digit). -/
def pyDigits : List Char → Option Nat
  | [] => none
  | c :: cs => if c.isDigit then pyDigitsAux (c.toNat - 48) false cs else none

/-- Python `int(s)` on the strings `nvidia-smi` can emit: optional
surrounding whitespace, optional sign, nonempty ASCII digit run with
underscore grouping; anything else raises `ValueError`, modelled `none`.
(Unicode digits, which Python also accepts, do not occur here.) -/
def pyInt (s : String) : Option ℤ :=
  match (pyStrip s).toList with
  | '+' :: rest => (pyDigits rest).map Int.ofNat
  | '-' :: rest => (pyDigits rest).map (fun n => -(n : ℤ))
  | t => (pyDigits t).map Int.ofNat

/- `pyDigitsAux` rejects a doubled underscore only through Python's actual
grammar; mirror it faithfully: an underscore directly after an underscore
is illegal. -/

/-! ## The history buffer (`history` dict, lines 13–17) -/

/-- The shared `history` store: three parallel lists, one entry per sample.
Timestamps are `time.time()` floats (modelled `ℚ`), `gpu_util` the parsed
integer utilization, `used_mem_percent` the derived float percentage. -/
structure History where
  timestamps : List ℚ
  gpu_util : List ℤ
  used_mem_percent : List ℚ
  deriving Repr, DecidableEq

/-- The initial empty history (module load time). -/
def emptyHistory : History := ⟨[], [], []⟩

/-- The buffer capacity hard-coded in `app.py` line 49 (`> 60`) and
line 51 (`[-60:]`); the spec calls it the configured capacity N with
default 60. -/
def capacity : ℕ := 60

/-- Python `l[-cap:]` for `cap ≥ 1`: the last `cap` elements (the whole
list when it is shorter). -/
def keepLast (cap : ℕ) (l : List α) : List α :=
  l.drop (l.length - cap)

/-- One append to the history (lines 43–51): append the new sample to the
end of each of the three lists, then, if the `timestamps` list has grown
beyond `cap` (`len(history["timestamps"]) > 60`), trim every list to its
last `cap` elements (`history[key][-60:]`).  `app.py` instantiates `cap`
with `capacity = 60`. -/
def appendSample (cap : ℕ) (h : History) (t : ℚ) (u : ℤ) (m : ℚ) : History :=
  if (h.timestamps ++ [t]).length > cap then
    ⟨keepLast cap (h.timestamps ++ [t]), keepLast cap (h.gpu_util ++ [u]),
      keepLast cap (h.used_mem_percent ++ [m])⟩
  else
    ⟨h.timestamps ++ [t], h.gpu_util ++ [u], h.used_mem_percent ++ [m]⟩

/-- Append a whole sequence of samples `(timestamp, gpu_util, mem_percent)`
to an empty buffer, in order. -/
def appendAll (cap : ℕ) (samples : List (ℚ × ℤ × ℚ)) : History :=
  samples.foldl (fun h s => appendSample cap h s.1 s.2.1 s.2.2) emptyHistory

/-- `/api/data` (lines 397–402): returns the history store as is. -/
def apiData (h : History) : History := h

/-- The three parallel lists always have the same length, so each index
forms one complete sample. -/
def wellFormed (h : History) : Prop :=
  h.timestamps.length = h.gpu_util.length ∧
    h.gpu_util.length = h.used_mem_percent.length

instance (h : History) : Decidable (wellFormed h) := by
  unfold wellFormed; infer_instance

/-! ## Sampler parsing and one loop iteration (`fetch_gpu_data`, lines 19–56) -/

/-- Lines 35–39: take the first line of the stripped stdout, split on
`", "`, and convert the first three fields with `int()`.  A missing field
(`IndexError`) or non-numeric field (`ValueError`) is a failure.  Returns
`(gpu_util, total_mem, used_mem)`. -/
def parseGpuFields (stdout : String) : Option (ℤ × ℤ × ℤ) :=
  let gpu_data := pySplitCommaSpace ((pySplitNewline (pyStrip stdout)).headD "")
  match gpu_data[0]?, gpu_data[1]?, gpu_data[2]? with
  | some s0, some s1, some s2 =>
    match pyInt s0, pyInt s1, pyInt s2 with
    | some u, some t, some m => some (u, t, m)
    | _, _, _ => none
  | _, _, _ => none

/-- Lines 35–40: the full parse of one sampler fetch, including the
derived `used_mem_percent = (used_mem / total_mem) * 100`; a zero total
raises `ZeroDivisionError` (modelled `none`).  Returns
`(gpu_util, used_mem_percent)`, the two values the loop appends besides
the timestamp. -/
def samplerParse (stdout : String) : Option (ℤ × ℚ) :=
  match parseGpuFields stdout with
  | none => none
  | some (u, t, m) =>
    if t = 0 then none else some (u, (m : ℚ) / (t : ℚ) * 100)

/-- One iteration of the `while True` loop (lines 25–53), with the
subprocess outcome passed in (`none` = the invocation raised).  On
success the sample is appended; on any failure the `except` branch
leaves the history untouched and prints an error (second component:
the log line emitted, `none` when nothing was printed). -/
def samplerIteration (fetch : Option String) (now : ℚ) (h : History) :
    History × Option String :=
  match fetch with
  | none => (h, some "Error fetching GPU data")
  | some stdout =>
    match samplerParse stdout with
    | none => (h, some "Error fetching GPU data")
    | some (u, m) => (appendSample capacity h now u m, none)

/-! ## The stats endpoint (`api_stats`, lines 405–440) -/

/-- The dict returned by `api_stats` on success (lines 431–438).
`gpu_util`, `free_mem` and `temperature` are kept as the raw strings from
the tool output; `total_mem` and `used_mem` are `int()`-converted;
`used_mem_percent` is the derived float. -/
structure GpuStats where
  gpu_util : String
  used_mem_percent : ℚ
  total_mem : ℤ
  used_mem : ℤ
  free_mem : String
  temperature : String
  deriving Repr, DecidableEq

/-- The JSON value `api_stats` returns: either the stats dict or the
`{"error": str(e)}` dict from the `except` branch (line 440).  The exact
`str(e)` text is Python-runtime specific; the model keeps a descriptive
message. -/
inductive ApiStatsResult where
  | ok (stats : GpuStats)
  | error (msg : String)
  deriving Repr, DecidableEq

/-- Whether the returned JSON value is the `{"error": …}` dict. -/
def ApiStatsResult.isError : ApiStatsResult → Bool
  | .error _ => true
  | .ok _ => false

/-- Lines 421–427: first line of stripped stdout, split on `", "`;
`gpu_util`, `free_mem`, `temperature` taken verbatim (`IndexError` when
missing), `total_mem` and `used_mem` through `int()`.  Returns
`(gpu_util, total_mem, used_mem, free_mem, temperature)`. -/
def parseStatsFields (stdout : String) :
    Option (String × ℤ × ℤ × String × String) :=
  let gpu_data := pySplitCommaSpace ((pySplitNewline (pyStrip stdout)).headD "")
  match gpu_data[0]?, gpu_data[1]?, gpu_data[2]?, gpu_data[3]?, gpu_data[4]? with
  | some s0, some s1, some s2, some s3, some s4 =>
    match pyInt s1, pyInt s2 with
    | some t, some m => some (s0, t, m, s3, s4)
    | _, _ => none
  | _, _, _, _, _ => none

/-- `api_stats` (lines 411–440): invocation failure, parse failure, and
division by zero all fall into the `except` branch and come back as the
error dict; otherwise the stats dict with
`used_mem_percent = (used_mem / total_mem) * 100` (line 429). -/
def apiStats (fetch : Option String) : ApiStatsResult :=
  match fetch with
  | none => .error "subprocess invocation failed"
  | some stdout =>
    match parseStatsFields stdout with
    | none => .error "malformed nvidia-smi output"
    | some (g, t, m, f, temp) =>
      if t = 0 then .error "division by zero"
      else .ok ⟨g, (m : ℚ) / (t : ℚ) * 100, t, m, f, temp⟩

/-- The failure condition of `api_stats`: the invocation raised, the
output did not parse, or the memory total is zero.  Decidable so concrete
instances evaluate. -/
def statsFetchFails (fetch : Option String) : Bool :=
  match fetch with
  | none => true
  | some stdout =>
    match parseStatsFields stdout with
    | none => true
    | some (_, t, _, _, _) => t = 0

/-! ## The process list (`fetch_gpu_processes`, lines 78–104) -/

/-- A Python runtime value as it sits in the returned dict: `app.py`
stores either a `str` or an `int` in each field. -/
inductive PyVal where
  | ofStr (s : String)
  | ofInt (n : ℤ)
  deriving Repr, DecidableEq

/-- Whether the value is a Python `int` (serialized as a JSON number). -/
def PyVal.isInt : PyVal → Bool
  | .ofInt _ => true
  | .ofStr _ => false

/-- Whether the value is a Python `str` (serialized as a JSON string). -/
def PyVal.isStr : PyVal → Bool
  | .ofStr _ => true
  | .ofInt _ => false

/-- One entry of the list `fetch_gpu_processes` builds (lines 94–98):
the dict `{"pid": …, "name": …, "used_memory": …}`. -/
structure ProcessEntry where
  pid : PyVal
  name : PyVal
  used_memory : PyVal
  deriving Repr, DecidableEq

/-- One line of the comprehension body (lines 95–97): split on `", "` and
index fields 0, 1, 2 in turn — an `IndexError` (fewer than three fields)
is a failure.  All three values are stored as the raw strings, with no
conversion. -/
def parseProcessLine (p : String) : Option ProcessEntry :=
  match (pySplitCommaSpace p)[0]? with
  | none => none
  | some a =>
    match (pySplitCommaSpace p)[1]? with
    | none => none
    | some b =>
      match (pySplitCommaSpace p)[2]? with
      | none => none
      | some c => some ⟨.ofStr a, .ofStr b, .ofStr c⟩

/-- A list comprehension whose body can raise: if any element fails, the
whole comprehension raises (and the enclosing `try` discards every
element already built). -/
def mapOption (f : α → Option β) : List α → Option (List β)
  | [] => some []
  | x :: xs =>
    match f x, mapOption f xs with
    | some y, some ys => some (y :: ys)
    | _, _ => none

/-- `fetch_gpu_processes` (lines 78–104): split the stripped stdout into
lines, keep the nonempty ones (`if p`), parse each into an entry; any
exception — including the invocation raising (`fetch = none`) and an
`IndexError` on a malformed line — is caught and an empty list returned. -/
def fetchGpuProcesses (fetch : Option String) : List ProcessEntry :=
  match fetch with
  | none => []
  | some stdout =>
    let processes := pySplitNewline (pyStrip stdout)
    match mapOption parseProcessLine (processes.filter (· != "")) with
    | some entries => entries
    | none => []

/-- A history whose three lists are full (length exactly `capacity`),
used to instantiate the overflow behaviour. -/
def fullHistory : History :=
  ⟨List.replicate 60 0, List.replicate 60 0, List.replicate 60 0⟩

/-! ## Buffer lemmas -/

theorem keepLast_of_le {l : List α} {cap : ℕ} (h : l.length ≤ cap) :
    keepLast cap l = l := by
  simp [keepLast, Nat.sub_eq_zero_of_le h]

theorem keepLast_append_of_ge {cap : ℕ} {l : List α} (hl : cap ≤ l.length) (a : α) :
    keepLast cap (keepLast cap l ++ [a]) = keepLast cap (l ++ [a]) := by
  have hk : l.length - cap ≤ l.length := Nat.sub_le _ _
  simp only [keepLast, List.length_append, List.length_drop, List.length_cons,
    List.length_nil]
  rw [← List.drop_append_of_le_length hk, List.drop_drop]
  congr 1
  omega

theorem appendSample_keepLast {cap : ℕ} (A : List ℚ) (B : List ℤ) (C : List ℚ)
    (hAB : A.length = B.length) (hAC : A.length = C.length) (t : ℚ) (u : ℤ) (m : ℚ) :
    appendSample cap ⟨keepLast cap A, keepLast cap B, keepLast cap C⟩ t u m =
      ⟨keepLast cap (A ++ [t]), keepLast cap (B ++ [u]), keepLast cap (C ++ [m])⟩ := by
  by_cases hlen : cap ≤ A.length
  · have hcond : ((⟨keepLast cap A, keepLast cap B, keepLast cap C⟩ :
        History).timestamps ++ [t]).length > cap := by
      simp [keepLast]; omega
    rw [appendSample, if_pos hcond]
    show History.mk _ _ _ = History.mk _ _ _
    rw [show (⟨keepLast cap A, keepLast cap B, keepLast cap C⟩ :
        History).timestamps = keepLast cap A from rfl]
    rw [show (⟨keepLast cap A, keepLast cap B, keepLast cap C⟩ :
        History).gpu_util = keepLast cap B from rfl]
    rw [show (⟨keepLast cap A, keepLast cap B, keepLast cap C⟩ :
        History).used_mem_percent = keepLast cap C from rfl]
    rw [keepLast_append_of_ge hlen, keepLast_append_of_ge (hAB ▸ hlen),
      keepLast_append_of_ge (hAC ▸ hlen)]
  · push_neg at hlen
    have hA : keepLast cap A = A := keepLast_of_le (by omega)
    have hB : keepLast cap B = B := keepLast_of_le (by omega)
    have hC : keepLast cap C = C := keepLast_of_le (by omega)
    have hcond : ¬ ((⟨keepLast cap A, keepLast cap B, keepLast cap C⟩ :
        History).timestamps ++ [t]).length > cap := by
      simp [hA]; omega
    rw [appendSample, if_neg hcond]
    show History.mk _ _ _ = History.mk _ _ _
    rw [show (⟨keepLast cap A, keepLast cap B, keepLast cap C⟩ :
        History).timestamps = keepLast cap A from rfl]
    rw [show (⟨keepLast cap A, keepLast cap B, keepLast cap C⟩ :
        History).gpu_util = keepLast cap B from rfl]
    rw [show (⟨keepLast cap A, keepLast cap B, keepLast cap C⟩ :
        History).used_mem_percent = keepLast cap C from rfl]
    rw [hA, hB, hC,
      keepLast_of_le (by simp; omega : (A ++ [t]).length ≤ cap),
      keepLast_of_le (by simp; omega : (B ++ [u]).length ≤ cap),
      keepLast_of_le (by simp; omega : (C ++ [m]).length ≤ cap)]

theorem foldl_appendSample {cap : ℕ} (l : List (ℚ × ℤ × ℚ)) :
    ∀ (A : List ℚ) (B : List ℤ) (C : List ℚ),
      A.length = B.length → A.length = C.length →
      l.foldl (fun h s => appendSample cap h s.1 s.2.1 s.2.2)
          ⟨keepLast cap A, keepLast cap B, keepLast cap C⟩ =
        ⟨keepLast cap (A ++ l.map Prod.fst),
          keepLast cap (B ++ l.map fun s => s.2.1),
          keepLast cap (C ++ l.map fun s => s.2.2)⟩ := by
  induction l with
  | nil => intro A B C hAB hAC; simp
  | cons s l ih =>
    intro A B C hAB hAC
    rw [List.foldl_cons, appendSample_keepLast A B C hAB hAC,
      ih (A ++ [s.1]) (B ++ [s.2.1]) (C ++ [s.2.2]) (by simp [hAB]) (by simp [hAC])]
    simp

/-! ## Claim theorems -/

/-- C1.  For every sequence of `cap + k` appends to a buffer of capacity
`cap` (the program uses `capacity = 60`), the `/api/data` snapshot is
exactly the last `cap` appended samples, in insertion order: what remains
of each parallel list is the original sequence with its first `k`
entries dropped. -/
theorem buffer_snapshot_last_n (cap k : ℕ) (_hcap : 1 ≤ cap)
    (samples : List (ℚ × ℤ × ℚ)) (hlen : samples.length = cap + k) :
    apiData (appendAll cap samples) =
      ⟨(samples.map Prod.fst).drop k,
        (samples.map fun s => s.2.1).drop k,
        (samples.map fun s => s.2.2).drop k⟩ := by
  have h := @foldl_appendSample cap samples [] [] [] rfl rfl
  have he : emptyHistory = (⟨keepLast cap [], keepLast cap [], keepLast cap []⟩ : History) := by
    simp [emptyHistory, keepLast]
  rw [apiData, appendAll, he, h]
  show History.mk _ _ _ = History.mk _ _ _
  rw [List.nil_append, List.nil_append, List.nil_append]
  unfold keepLast
  rw [List.length_map, List.length_map, List.length_map, hlen,
    show cap + k - cap = k by omega]

/-- C1 witness: capacity 3, appends at t = 1, 2, 3, 4 — the snapshot is
the samples at t = 2, 3, 4. -/
theorem buffer_snapshot_last_n_witness :
    apiData (appendAll 3 [(1, 10, 5), (2, 20, 6), (3, 30, 7), (4, 40, 8)]) =
      ⟨[2, 3, 4], [20, 30, 40], [6, 7, 8]⟩ := by
  have h := buffer_snapshot_last_n 3 1 (by norm_num)
    [(1, 10, 5), (2, 20, 6), (3, 30, 7), (4, 40, 8)] rfl
  simpa using h

/-- C2.  On a well-formed history the post-append length of every list is
at most `capacity` (= 60), and when the buffer is exactly full the append
discards the oldest sample: the result is each list with its head dropped
and the new value appended. -/
theorem buffer_capacity_invariant (h : History) (t : ℚ) (u : ℤ) (m : ℚ)
    (hw : wellFormed h) :
    ((appendSample capacity h t u m).timestamps.length ≤ capacity ∧
      (appendSample capacity h t u m).gpu_util.length ≤ capacity ∧
      (appendSample capacity h t u m).used_mem_percent.length ≤ capacity) ∧
    (h.timestamps.length = capacity →
      appendSample capacity h t u m =
        ⟨h.timestamps.drop 1 ++ [t], h.gpu_util.drop 1 ++ [u],
          h.used_mem_percent.drop 1 ++ [m]⟩) := by
  obtain ⟨h1, h2⟩ := hw
  constructor
  · rw [appendSample]
    split
    · refine ⟨?_, ?_, ?_⟩ <;> (simp [keepLast]; omega)
    · rename_i hcond
      simp only [List.length_append, List.length_cons, List.length_nil] at hcond ⊢
      refine ⟨?_, ?_, ?_⟩ <;> omega
  · intro hts
    have h60 : h.timestamps.length = 60 := hts.trans (by rfl)
    have hcond : ((h.timestamps ++ [t]).length > capacity) := by
      simp [hts]
    rw [appendSample, if_pos hcond]
    show History.mk _ _ _ = History.mk _ _ _
    unfold keepLast
    rw [show (h.timestamps ++ [t]).length - capacity = 1 by simp [hts],
      show (h.gpu_util ++ [u]).length - capacity = 1 by simp [← h1, hts],
      show (h.used_mem_percent ++ [m]).length - capacity = 1 by
        simp [← h2, ← h1, hts],
      List.drop_append_of_le_length (by omega : 1 ≤ h.timestamps.length),
      List.drop_append_of_le_length (by omega : 1 ≤ h.gpu_util.length),
      List.drop_append_of_le_length (by omega : 1 ≤ h.used_mem_percent.length)]

/-- Appending one sample preserves the parallel-lists invariant. -/
theorem wellFormed_appendSample (cap : ℕ) (h : History) (hw : wellFormed h)
    (t : ℚ) (u : ℤ) (m : ℚ) : wellFormed (appendSample cap h t u m) := by
  obtain ⟨h1, h2⟩ := hw
  rw [appendSample]
  split
  · refine ⟨?_, ?_⟩ <;> (simp [keepLast]; omega)
  · refine ⟨?_, ?_⟩ <;> (simp; omega)

/-- If `mapOption f` succeeds, every output element is the image of some
input element. -/
theorem mapOption_mem {f : α → Option β} {l : List α} {ys : List β}
    (h : mapOption f l = some ys) {y : β} (hy : y ∈ ys) :
    ∃ x ∈ l, f x = some y := by
  induction l generalizing ys with
  | nil =>
    simp only [mapOption] at h
    cases h
    cases hy
  | cons x xs ih =>
    simp only [mapOption] at h
    cases hfx : f x with
    | none => rw [hfx] at h; cases h
    | some y' =>
      cases hxs : mapOption f xs with
      | none => rw [hfx, hxs] at h; cases h
      | some ys' =>
        rw [hfx, hxs] at h
        cases h
        cases hy with
        | head => exact ⟨x, List.mem_cons_self x xs, hfx⟩
        | tail _ hy' =>
          obtain ⟨x', hx', hfx'⟩ := ih hxs hy'
          exact ⟨x', List.mem_cons_of_mem x hx', hfx'⟩

/-- If any input element fails, `mapOption f` fails. -/
theorem mapOption_eq_none {f : α → Option β} {l : List α} {x : α}
    (hx : x ∈ l) (hfx : f x = none) : mapOption f l = none := by
  induction l with
  | nil => cases hx
  | cons y ys ih =>
    simp only [mapOption]
    cases hx with
    | head => rw [hfx]
    | tail _ hx' =>
      rw [ih hx']
      cases hfy : f y with
      | none => rfl
      | some z => rfl

/-- A successfully parsed process line has all three fields stored as raw
strings. -/
theorem parseProcessLine_fields (p : String) (e : ProcessEntry)
    (h : parseProcessLine p = some e) :
    ∃ a b c, e = ⟨PyVal.ofStr a, PyVal.ofStr b, PyVal.ofStr c⟩ := by
  simp only [parseProcessLine] at h
  cases h0 : (pySplitCommaSpace p)[0]? with
  | none => rw [h0] at h; cases h
  | some a =>
    rw [h0] at h
    cases h1 : (pySplitCommaSpace p)[1]? with
    | none => rw [h1] at h; cases h
    | some b =>
      rw [h1] at h
      cases h2 : (pySplitCommaSpace p)[2]? with
      | none => rw [h2] at h; cases h
      | some c =>
        rw [h2] at h
        exact ⟨a, b, c, (Option.some.inj h).symm⟩

/-- C2 witness: appending to a full (length-60) history keeps every list
at length ≤ 60 and drops the oldest entry. -/
theorem buffer_capacity_invariant_witness :
    ((appendSample capacity fullHistory 1 2 3).timestamps.length ≤ capacity ∧
      (appendSample capacity fullHistory 1 2 3).gpu_util.length ≤ capacity ∧
      (appendSample capacity fullHistory 1 2 3).used_mem_percent.length ≤ capacity) ∧
    (fullHistory.timestamps.length = capacity →
      appendSample capacity fullHistory 1 2 3 =
        ⟨fullHistory.timestamps.drop 1 ++ [1], fullHistory.gpu_util.drop 1 ++ [2],
          fullHistory.used_mem_percent.drop 1 ++ [3]⟩) :=
  buffer_capacity_invariant fullHistory 1 2 3 (by constructor <;> simp [fullHistory])

/-- C3.  A sampler iteration whose invocation fails (`fetch = none`) or
whose output does not parse (missing field, non-numeric field, zero
total) appends nothing — the history is returned exactly unchanged — and
the error is printed instead of propagated (the iteration is a total
function producing a log line). -/
theorem sampler_failure_no_append (fetch : Option String) (now : ℚ) (h : History)
    (hfail : fetch = none ∨ ∃ s, fetch = some s ∧ samplerParse s = none) :
    (samplerIteration fetch now h).1 = h ∧
      (samplerIteration fetch now h).2.isSome = true := by
  rcases hfail with hf | ⟨s, hs, hp⟩
  · subst hf; exact ⟨rfl, rfl⟩
  · subst hs; simp [samplerIteration, hp]

/-- C3 witness: a zero memory total (division by zero) leaves a full
history untouched and logs. -/
theorem sampler_failure_no_append_witness :
    (samplerIteration (some "42, 0, 10") 7 fullHistory).1 = fullHistory ∧
      (samplerIteration (some "42, 0, 10") 7 fullHistory).2.isSome = true :=
  sampler_failure_no_append (some "42, 0, 10") 7 fullHistory
    (Or.inr ⟨"42, 0, 10", rfl, by decide⟩)

/-- C4.  Both the sampler and `api_stats` derive the memory percentage by
exactly `used / total * 100` from the parsed integer fields (total
nonzero). -/
theorem used_mem_percent_formula :
    (∀ stdout u t m, parseGpuFields stdout = some (u, t, m) → t ≠ 0 →
      samplerParse stdout = some (u, (m : ℚ) / (t : ℚ) * 100)) ∧
    (∀ fetch st, apiStats fetch = ApiStatsResult.ok st →
      st.used_mem_percent = (st.used_mem : ℚ) / (st.total_mem : ℚ) * 100) := by
  constructor
  · intro stdout u t m hp ht
    unfold samplerParse
    rw [hp]
    simp [ht]
  · intro fetch st hok
    cases fetch with
    | none => simp [apiStats] at hok
    | some stdout =>
      simp only [apiStats] at hok
      split at hok
      · cases hok
      · split at hok
        · cases hok
        · cases hok; rfl

/-- C4 witness: total = 8192, used = 4096 gives exactly 50. -/
theorem used_mem_percent_formula_witness :
    samplerParse "42, 8192, 4096" = some (42, 50) := by
  have h := used_mem_percent_formula.1 "42, 8192, 4096" 42 8192 4096
    (by decide) (by norm_num)
  rw [h]
  norm_num

/-- C6.  `fetch_gpu_processes` on empty tool output returns the empty
list (the comprehension filters out the single empty line), not an error
value. -/
theorem fetch_processes_empty_output : fetchGpuProcesses (some "") = [] := by
  decide

/-- C7.  Whenever the fetch or parse behind `api_stats` fails (invocation
raised, malformed output, or zero total), the endpoint returns the
`{"error": …}` dict — an error-tagged value handed to the caller, not a
propagated exception (the embedding is a total function). -/
theorem api_stats_error_tagged (fetch : Option String)
    (hfail : statsFetchFails fetch = true) :
    (apiStats fetch).isError = true := by
  cases fetch with
  | none => rfl
  | some stdout =>
    cases hps : parseStatsFields stdout with
    | none => simp [apiStats, hps, ApiStatsResult.isError]
    | some q =>
      obtain ⟨g, t, m, f, temp⟩ := q
      simp only [statsFetchFails, hps] at hfail
      have ht : t = 0 := by simpa using hfail
      simp [apiStats, hps, ht, ApiStatsResult.isError]

/-- C7 witness: unparseable output produces the error dict. -/
theorem api_stats_error_tagged_witness :
    (apiStats (some "nonsense")).isError = true :=
  api_stats_error_tagged (some "nonsense") (by decide)

/-- C8 counterexample: on the well-formed process line
`"123, python, 456"` the built entry stores `pid` and `used_memory` as
the Python strings `"123"` and `"456"` — not integers — refuting the
claim that the pid and used-memory fields are integers. -/
theorem process_fields_not_integers :
    fetchGpuProcesses (some "123, python, 456") =
      [⟨PyVal.ofStr "123", PyVal.ofStr "python", PyVal.ofStr "456"⟩] ∧
    PyVal.isInt (PyVal.ofStr "123") = false ∧
    PyVal.isInt (PyVal.ofStr "456") = false :=
  ⟨by decide, rfl, rfl⟩

/-- C8 amended.  Every element of the list returned by
`fetch_gpu_processes` has its `pid`, `name` and `used_memory` fields
stored as Python strings — the raw comma-separated fields of the tool
output, with no integer conversion. -/
theorem process_fields_are_strings (fetch : Option String) (e : ProcessEntry)
    (he : e ∈ fetchGpuProcesses fetch) :
    e.pid.isStr = true ∧ e.name.isStr = true ∧ e.used_memory.isStr = true := by
  cases fetch with
  | none => cases he
  | some stdout =>
    simp only [fetchGpuProcesses] at he
    cases hm : mapOption parseProcessLine
        ((pySplitNewline (pyStrip stdout)).filter (· != "")) with
    | none => rw [hm] at he; cases he
    | some entries =>
      rw [hm] at he
      obtain ⟨x, hx, hpx⟩ := mapOption_mem hm he
      obtain ⟨a, b, c, rfl⟩ := parseProcessLine_fields x e hpx
      exact ⟨rfl, rfl, rfl⟩

/-- C8 amended witness: the entry parsed from `"123, python, 456"` has
all three fields stored as strings. -/
theorem process_fields_are_strings_witness :
    (⟨PyVal.ofStr "123", PyVal.ofStr "python", PyVal.ofStr "456"⟩ :
      ProcessEntry).pid.isStr = true ∧
    (⟨PyVal.ofStr "123", PyVal.ofStr "python", PyVal.ofStr "456"⟩ :
      ProcessEntry).name.isStr = true ∧
    (⟨PyVal.ofStr "123", PyVal.ofStr "python", PyVal.ofStr "456"⟩ :
      ProcessEntry).used_memory.isStr = true :=
  process_fields_are_strings (some "123, python, 456")
    ⟨PyVal.ofStr "123", PyVal.ofStr "python", PyVal.ofStr "456"⟩ (by decide)

/-- C9.  Every sampler iteration — successful append, failed parse, or
failed invocation, including the overflow trim — keeps the three parallel
lists of the history at equal length, so each index forms one complete
sample. -/
theorem history_parallel_lists (fetch : Option String) (now : ℚ) (h : History)
    (hw : wellFormed h) : wellFormed (samplerIteration fetch now h).1 := by
  cases fetch with
  | none => exact hw
  | some stdout =>
    cases hp : samplerParse stdout with
    | none => simpa [samplerIteration, hp] using hw
    | some p =>
      obtain ⟨u, m⟩ := p
      simp only [samplerIteration, hp]
      exact wellFormed_appendSample capacity h hw now u m

/-- C9 witness: a successful append to the empty history keeps the lists
parallel. -/
theorem history_parallel_lists_witness :
    wellFormed (samplerIteration (some "42, 8192, 4096") 7 emptyHistory).1 :=
  history_parallel_lists (some "42, 8192, 4096") 7 emptyHistory ⟨rfl, rfl⟩

/-- C10.  If any single nonempty line of the process-list output has
fewer than three `", "`-separated fields, the whole fetch returns the
empty list — every well-formed line is discarded with it. -/
theorem malformed_line_empties_fetch (stdout line : String)
    (hmem : line ∈ pySplitNewline (pyStrip stdout)) (hne : line ≠ "")
    (hbad : (pySplitCommaSpace line).length < 3) :
    fetchGpuProcesses (some stdout) = [] := by
  have h2 : (pySplitCommaSpace line)[2]? = none :=
    List.getElem?_eq_none (by omega)
  have hpl : parseProcessLine line = none := by
    simp only [parseProcessLine]
    cases h0 : (pySplitCommaSpace line)[0]? with
    | none => rfl
    | some a =>
      cases h1 : (pySplitCommaSpace line)[1]? with
      | none => rfl
      | some b => rw [h2]
  have hmemf : line ∈ (pySplitNewline (pyStrip stdout)).filter (· != "") := by
    simp [List.mem_filter, hmem, hne]
  have hnone := mapOption_eq_none hmemf hpl
  simp only [fetchGpuProcesses]
  rw [hnone]

/-- C10 witness: one malformed second line empties the fetch even though
the first line is well-formed. -/
theorem malformed_line_empties_fetch_witness :
    fetchGpuProcesses (some "111, ok, 222\nbadline") = [] :=
  malformed_line_empties_fetch "111, ok, 222\nbadline" "badline"
    (by decide) (by decide) (by decide)

end Nvwebtop
